import Mathlib

/-!
# DataForge frontend — shallow embedding

This file embeds, in Lean, the client-side logic of the DataForge web
frontend that drives dataset upload and pipeline submission:

* `formatBytes` from `frontend/app/datasets/page.tsx` (also duplicated in the
  dataset detail page);
* the chunked-upload path of `onDrop` in `frontend/app/datasets/page.tsx`
  (chunk arithmetic, the submission loop, and its error handling);
* the pipeline configuration drawer of the dataset detail page:
  `DEFAULT_STEPS`, `handleDragEnd` (via `arrayMove` from `@dnd-kit`),
  `toggleStep`, `updateStepConfig`, `handleRunPipeline`, and the Run button's
  disabled flag.

JavaScript objects with a fixed shape become structures; the dynamic
`config: Record<string, any>` maps become association lists of
`String × ConfigValue`.  A `Blob.slice(start, end)` is embedded as the pair
of byte offsets it denotes (a JS blob slice is a view, not a copy); a
separate function `sliceBytes` materialises such a range over a byte list.
-/

/-- A typed config value: the option values occurring in the stage catalog
are strings, numbers, booleans, or string lists. -/
inductive ConfigValue where
  | str (s : String)
  | num (q : ℚ)
  | bool (b : Bool)
  | strList (l : List String)
deriving DecidableEq, Repr

/-- One entry of a `select` field's `options` array. -/
structure SelectOption where
  value : String
  label : String
deriving DecidableEq, Repr

/-- The field kinds of the `ConfigField.type` union in the source. -/
inductive FieldType where
  | text | select | number | boolean | multitext
deriving DecidableEq, Repr

/-- `ConfigField` from `app/datasets/[id]/page.tsx`: one declared config
option of a pipeline stage. -/
structure ConfigField where
  key : String
  label : String
  type : FieldType
  options : List SelectOption := []
  default : ConfigValue
deriving DecidableEq, Repr

/-- `PipelineStepDef` from `app/datasets/[id]/page.tsx`. -/
structure PipelineStepDef where
  id : String
  step : String
  label : String
  icon : String
  description : String
  enabled : Bool
  config : List (String × ConfigValue)
  configFields : List ConfigField
deriving DecidableEq, Repr

/-- The deduplication entry of `DEFAULT_STEPS`. -/
def dedupStepDef : PipelineStepDef :=
  { id := "dedup", step := "deduplication", label := "Deduplication", icon := "🔁"
  , description := "Remove duplicate rows using exact hash or semantic similarity"
  , enabled := true
  , config := [("method", .str "exact"), ("columns", .str "all"), ("keep", .str "first"),
      ("semantic_threshold", .num 0.95)]
  , configFields :=
      [ { key := "method", label := "Method", type := .select
        , options := [⟨"exact", "Exact (SHA256)"⟩, ⟨"semantic", "Semantic"⟩, ⟨"both", "Both"⟩]
        , default := .str "exact" }
      , { key := "columns", label := "Columns", type := .text, default := .str "all" }
      , { key := "keep", label := "Keep", type := .select
        , options := [⟨"first", "First"⟩, ⟨"last", "Last"⟩], default := .str "first" }
      , { key := "semantic_threshold", label := "Similarity Threshold", type := .number
        , default := .num 0.95 } ] }

/-- The noise-removal entry of `DEFAULT_STEPS`. -/
def noiseStepDef : PipelineStepDef :=
  { id := "noise", step := "noise_removal", label := "Noise Removal", icon := "🧹"
  , description := "Fix encoding, strip HTML, normalize whitespace and unicode"
  , enabled := true
  , config := [("fix_encoding", .bool true), ("strip_html", .bool true),
      ("normalize_whitespace", .bool true), ("remove_control_chars", .bool true),
      ("normalize_unicode", .bool true), ("strip_urls", .bool false),
      ("min_text_length", .num 0), ("max_text_length", .num 0)]
  , configFields :=
      [ { key := "fix_encoding", label := "Fix Encoding (ftfy)", type := .boolean, default := .bool true }
      , { key := "strip_html", label := "Strip HTML", type := .boolean, default := .bool true }
      , { key := "normalize_whitespace", label := "Normalize Whitespace", type := .boolean, default := .bool true }
      , { key := "normalize_unicode", label := "Normalize Unicode", type := .boolean, default := .bool true }
      , { key := "strip_urls", label := "Strip URLs", type := .boolean, default := .bool false }
      , { key := "min_text_length", label := "Min Text Length", type := .number, default := .num 0 }
      , { key := "max_text_length", label := "Max Text Length (0=none)", type := .number, default := .num 0 } ] }

/-- The PII-scrubbing entry of `DEFAULT_STEPS`. -/
def piiStepDef : PipelineStepDef :=
  { id := "pii", step := "pii_scrubbing", label := "PII Scrubbing", icon := "🔒"
  , description := "Detect and redact personally identifiable information"
  , enabled := true
  , config := [("action", .str "redact"), ("entities", .strList ["ALL"]),
      ("redact_with", .str "[REDACTED]"), ("columns", .str "all_text")]
  , configFields :=
      [ { key := "action", label := "Action", type := .select
        , options := [⟨"redact", "Redact"⟩, ⟨"remove_row", "Remove Row"⟩, ⟨"flag", "Flag Only"⟩]
        , default := .str "redact" }
      , { key := "redact_with", label := "Replace With", type := .text, default := .str "[REDACTED]" }
      , { key := "columns", label := "Columns", type := .text, default := .str "all_text" } ] }

/-- The language-filter entry of `DEFAULT_STEPS` (the only entry whose
`enabled` flag is `false` by default). -/
def langStepDef : PipelineStepDef :=
  { id := "lang", step := "language_filter", label := "Language Filter", icon := "🌐"
  , description := "Detect language and filter/tag rows"
  , enabled := false
  , config := [("action", .str "tag_only"), ("languages", .strList ["en"]),
      ("min_confidence", .num 0.8)]
  , configFields :=
      [ { key := "action", label := "Action", type := .select
        , options := [⟨"tag_only", "Tag Only"⟩, ⟨"filter_keep", "Keep Languages"⟩,
            ⟨"filter_remove", "Remove Languages"⟩]
        , default := .str "tag_only" }
      , { key := "languages", label := "Languages (comma-sep)", type := .text, default := .str "en" }
      , { key := "min_confidence", label := "Min Confidence", type := .number, default := .num 0.8 } ] }

/-- The quality-scorer entry of `DEFAULT_STEPS`. -/
def qualityStepDef : PipelineStepDef :=
  { id := "quality", step := "quality_scorer", label := "Quality Scorer", icon := "⭐"
  , description := "Score each row 0-10 for quality using heuristics or AI"
  , enabled := true
  , config := [("method", .str "heuristic"), ("action", .str "score_only"),
      ("threshold", .num 0), ("score_column_name", .str "quality_score")]
  , configFields :=
      [ { key := "method", label := "Method", type := .select
        , options := [⟨"heuristic", "Heuristic"⟩, ⟨"ai", "AI (needs API key)"⟩, ⟨"both", "Both"⟩]
        , default := .str "heuristic" }
      , { key := "action", label := "Action", type := .select
        , options := [⟨"score_only", "Score Only"⟩, ⟨"filter", "Filter Below Threshold"⟩,
            ⟨"flag", "Flag Low Quality"⟩]
        , default := .str "score_only" }
      , { key := "threshold", label := "Score Threshold", type := .number, default := .num 0 } ] }

/-- `DEFAULT_STEPS` from `app/datasets/[id]/page.tsx`. -/
def DEFAULT_STEPS : List PipelineStepDef :=
  [dedupStepDef, noiseStepDef, piiStepDef, langStepDef, qualityStepDef]

/-- The fixed enumerated set of stage identifiers (the keys of `STEP_NAMES` /
`STEP_ICONS` in the job detail page, and the `step` fields of `DEFAULT_STEPS`). -/
def STEP_IDENTIFIERS : List String :=
  ["deduplication", "noise_removal", "pii_scrubbing", "language_filter", "quality_scorer"]

/-!
## `formatBytes`

`formatBytes` appears verbatim in `frontend/app/datasets/page.tsx` and in the
dataset detail page.  `bytes` is `number | null`; the guard `if (!bytes)`
is true both for `null` and for `0` (JavaScript falsiness).  `toFixed` is
modelled as decimal rounding (round half up) of the exact quotient; the
claims touch only the `"—"` and `"B"` branches, which involve no rounding.
-/

/-- `(b / unit).toFixed(1)`, modelled as decimal rounding of the exact
quotient: the quotient in tenths, rounded half up. -/
def toFixed1Div (b unit : Nat) : String :=
  let t := (b * 10 + unit / 2) / unit
  toString (t / 10) ++ "." ++ toString (t % 10)

/-- `(b / unit).toFixed(2)`, modelled as decimal rounding of the exact
quotient: the quotient in hundredths, rounded half up. -/
def toFixed2Div (b unit : Nat) : String :=
  let c := (b * 100 + unit / 2) / unit
  toString (c / 100) ++ "." ++ (if c % 100 < 10 then "0" else "") ++ toString (c % 100)

/-- `formatBytes(bytes: number | null): string` from
`frontend/app/datasets/page.tsx` (lines 61–67). -/
def formatBytes (bytes : Option Nat) : String :=
  match bytes with
  | none => "—"
  | some b =>
    if b = 0 then "—"
    else if b < 1024 then toString b ++ " B"
    else if b < 1048576 then toFixed1Div b 1024 ++ " KB"
    else if b < 1073741824 then toFixed1Div b 1048576 ++ " MB"
    else toFixed2Div b 1073741824 ++ " GB"

/-!
## Chunked upload (`onDrop`, `frontend/app/datasets/page.tsx` lines 110–146)

A file of `size > CHUNK_SIZE` bytes is split into
`totalChunks = ceil(size / CHUNK_SIZE)` chunks; chunk `i` is the blob slice
`[i*CHUNK_SIZE, min((i+1)*CHUNK_SIZE, size))`.  The `for` loop posts the
chunks in index order and stops (`return`) on the first failed request,
recording the server's error message and clearing the progress indicator.
The loop is embedded as structural recursion over `List.range totalChunks`,
and the backend's per-chunk response is an oracle
`Nat → Except String ChunkResponse`.
-/

/-- `const CHUNK_SIZE = 100 * 1024 * 1024; // 100MB` -/
def CHUNK_SIZE : Nat := 100 * 1024 * 1024

/-- `Math.ceil(file.size / CHUNK_SIZE)` as exact ceiling division.  (For the
file sizes the UI accepts — up to 10GB — the double-precision quotient is
exact enough that the float ceiling agrees with the exact ceiling.) -/
def totalChunks (size : Nat) : Nat := (size + CHUNK_SIZE - 1) / CHUNK_SIZE

/-- The form data of one `POST /api/ingestion/upload/chunk` request.  The
blob slice `file.slice(start, end)` is represented by its byte range
`[start, stop)`; `sliceBytes` below materialises it. -/
structure ChunkSubmission where
  chunk_index : Nat
  total_chunks : Nat
  start : Nat
  stop : Nat
deriving DecidableEq, Repr

/-- The submission built for chunk `i` of a file of `size` bytes:
`start = i * CHUNK_SIZE`, `end = Math.min(start + CHUNK_SIZE, file.size)`. -/
def mkChunkSubmission (size i : Nat) : ChunkSubmission :=
  { chunk_index := i
  , total_chunks := totalChunks size
  , start := i * CHUNK_SIZE
  , stop := min (i * CHUNK_SIZE + CHUNK_SIZE) size }

/-- All submissions the loop would build, in index order `0, 1, …`. -/
def chunkSubmissions (size : Nat) : List ChunkSubmission :=
  (List.range (totalChunks size)).map (mkChunkSubmission size)

/-- `file.slice(s, e)` materialised over a byte list. -/
def sliceBytes (file : List Nat) (s e : Nat) : List Nat :=
  (file.drop s).take (e - s)

/-- The bytes of a chunk submission's range. -/
def chunkData (file : List Nat) (sub : ChunkSubmission) : List Nat :=
  sliceBytes file sub.start sub.stop

/-- The fields of a successful chunk response the client reads
(`res.data.progress`, `res.data.status`). -/
structure ChunkResponse where
  progress : ℚ
  status : String
deriving DecidableEq, Repr

/-- The two React state cells the chunk loop writes
(`uploadProgress`, `uploadError`). -/
structure UploadUiState where
  uploadProgress : Option ℚ
  uploadError : Option String
deriving DecidableEq, Repr

/-- Whether a per-chunk response is a success. -/
def respOk : Except String ChunkResponse → Bool
  | .ok _ => true
  | .error _ => false

/-- The body of the chunk `for` loop, iterated over the remaining chunk
indices.  On success the progress cell is set (and cleared again when the
response status is `"complete"`); on failure the error message is recorded,
the progress cell is cleared, and the function returns — no further chunk is
submitted.  Returns the final UI state and the list of submissions sent. -/
def processChunks (respond : Nat → Except String ChunkResponse) (size : Nat) :
    List Nat → UploadUiState → UploadUiState × List ChunkSubmission
  | [], st => (st, [])
  | i :: rest, st =>
    match respond i with
    | .error e => ({ uploadProgress := none, uploadError := some e }, [mkChunkSubmission size i])
    | .ok r =>
      let st1 : UploadUiState :=
        if r.status = "complete" then { uploadProgress := none, uploadError := st.uploadError }
        else { uploadProgress := some r.progress, uploadError := st.uploadError }
      let res := processChunks respond size rest st1
      (res.1, mkChunkSubmission size i :: res.2)

/-- The chunked branch of `onDrop`: upload error reset to `null`, then the
loop over chunk indices `0 ≤ i < totalChunks`. -/
def onDropChunked (respond : Nat → Except String ChunkResponse) (size : Nat) :
    UploadUiState × List ChunkSubmission :=
  processChunks respond size (List.range (totalChunks size))
    { uploadProgress := none, uploadError := none }

/-!
## Pipeline configuration drawer (`app/datasets/[id]/page.tsx`)
-/

/-- `arrayMove` from `@dnd-kit/sortable`: remove the element at `oldIndex`
and re-insert it at `newIndex`.  (For an out-of-range `oldIndex` — which the
drag handler never produces, since both indices come from `findIndex` over
the rendered items — the list is returned unchanged.) -/
def arrayMove (l : List α) (oldIndex newIndex : Nat) : List α :=
  match l[oldIndex]? with
  | none => l
  | some x => (l.eraseIdx oldIndex).insertIdx newIndex x

/-- `handleDragEnd` (lines 230–239): when an item is dropped over a different
item, move it from its index to the target's index. -/
def handleDragEnd (items : List PipelineStepDef) (activeId overId : String) :
    List PipelineStepDef :=
  if activeId ≠ overId then
    arrayMove items (items.findIdx (fun s => s.id = activeId))
      (items.findIdx (fun s => s.id = overId))
  else items

/-- `toggleStep` (lines 241–243): flip the `enabled` flag of the step with
the given id. -/
def toggleStep (id : String) (l : List PipelineStepDef) : List PipelineStepDef :=
  l.map (fun s => if s.id = id then { s with enabled := !s.enabled } else s)

/-- The JS object spread `{ ...cfg, [k]: v }` over an association list: an
existing key keeps its position and gets the new value, a new key is
appended. -/
def objSet (cfg : List (String × ConfigValue)) (k : String) (v : ConfigValue) :
    List (String × ConfigValue) :=
  if cfg.any (fun p => p.1 = k) then
    cfg.map (fun p => if p.1 = k then (k, v) else p)
  else cfg ++ [(k, v)]

/-- `updateStepConfig` (lines 245–247): set one config option of the step
with the given id. -/
def updateStepConfig (id k : String) (v : ConfigValue) (l : List PipelineStepDef) :
    List PipelineStepDef :=
  l.map (fun s => if s.id = id then { s with config := objSet s.config k v } else s)

/-- One entry of the `steps` array posted to `POST /api/jobs/`: only the
stage identifier and its config survive the projection in
`handleRunPipeline` — no `enabled` flag, position, or UI metadata. -/
structure SubmittedStep where
  step : String
  config : List (String × ConfigValue)
deriving DecidableEq, Repr

/-- The `enabledSteps` constant of `handleRunPipeline` (lines 250–255):
filter the configured list to the enabled stages, then project each to
`{ step, config }`. -/
def enabledSteps (l : List PipelineStepDef) : List SubmittedStep :=
  (l.filter (fun s => s.enabled)).map (fun s => { step := s.step, config := s.config })

/-- The body of `POST /api/jobs/` built by `handleRunPipeline`. -/
structure JobRequest where
  dataset_id : String
  mode : String
  steps : List SubmittedStep
deriving DecidableEq, Repr

/-- `handleRunPipeline` (lines 249–273): no request at all when zero stages
are enabled, otherwise one job-creation request with the enabled steps. -/
def handleRunPipeline (datasetId : String) (l : List PipelineStepDef) :
    Option JobRequest :=
  let es := enabledSteps l
  if es.length = 0 then none
  else some { dataset_id := datasetId, mode := "common", steps := es }

/-- `enabledCount` (line 284). -/
def enabledCount (l : List PipelineStepDef) : Nat :=
  (l.filter (fun s => s.enabled)).length

/-- The Run button's `disabled` prop (line 418):
`submitting || enabledCount === 0`. -/
def runDisabled (submitting : Bool) (l : List PipelineStepDef) : Bool :=
  submitting || enabledCount l == 0

/-- Modelled from the spec: the backend Pipeline Executor is not under
`src/`; per §3 a JobResult carries "an ordered list of StageResult (one per
executed — including skipped — stage)", i.e. one StageResult, tagged with
the stage's identifier, per stage config submitted to the job, in order.
This function gives the stage identifiers of that list. -/
def jobStageResultIds (req : JobRequest) : List String :=
  req.steps.map (fun t => t.step)

/-- Modelled from the spec: the backend Quality Scorer stage is not under
`src/`; per §4.4 it "produces a numeric score per row in a fixed range
(0–10) written to a configurable output column".  The per-row score is
modelled as an arbitrary raw heuristic value clamped into `[0, 10]`. -/
def qualityScoreClamp (raw : ℚ) : ℚ := max 0 (min 10 raw)

/-!
## Helper lemmas
-/

/-- The number of chunks covers the whole file: `size ≤ totalChunks size * CHUNK_SIZE`. -/
theorem le_totalChunks_mul (size : Nat) : size ≤ totalChunks size * CHUNK_SIZE := by
  simp only [totalChunks, CHUNK_SIZE]
  omega

/-- Inserting at a position within the list is a permutation of consing. -/
theorem insertIdx_perm_cons (x : α) :
    ∀ (n : Nat) (l : List α), n ≤ l.length → (l.insertIdx n x).Perm (x :: l)
  | 0, l, _ => by simp [List.insertIdx_zero]
  | n + 1, [], h => by simp at h
  | n + 1, a :: l, h => by
    rw [List.insertIdx_succ_cons]
    exact ((insertIdx_perm_cons x n l (by simpa using h)).cons a).trans (List.Perm.swap x a l)

/-- Consing the removed element back onto `eraseIdx` permutes to the original list. -/
theorem cons_eraseIdx_perm (l : List α) (i : Nat) (h : i < l.length) :
    (l[i] :: l.eraseIdx i).Perm l := by
  rw [List.eraseIdx_eq_take_drop_succ]
  refine List.Perm.trans List.perm_middle.symm ?_
  rw [List.getElem_cons_drop, List.take_append_drop]

/-- `arrayMove` permutes the list whenever the target index is in range. -/
theorem arrayMove_perm (l : List α) (i j : Nat) (hj : j < l.length) :
    (arrayMove l i j).Perm l := by
  cases hx : l[i]? with
  | none => simp [arrayMove, hx]
  | some x =>
    obtain ⟨hi, hix⟩ := List.getElem?_eq_some.mp hx
    simp only [arrayMove, hx]
    refine (insertIdx_perm_cons x j _ ?_).trans ?_
    · rw [List.length_eraseIdx, if_pos hi]
      omega
    · rw [← hix]
      exact cons_eraseIdx_perm l i hi

/-- `handleDragEnd` permutes the list when both dragged ids occur in it. -/
theorem handleDragEnd_perm (l : List PipelineStepDef) (a b : String)
    (hb : ∃ s ∈ l, s.id = b) : (handleDragEnd l a b).Perm l := by
  unfold handleDragEnd
  split
  · apply arrayMove_perm
    apply List.findIdx_lt_length_of_exists
    obtain ⟨s, hs, hsb⟩ := hb
    exact ⟨s, hs, by simp [hsb]⟩
  · exact List.Perm.refl l

/-- Toggling a step's enabled flag leaves every stage identifier in place. -/
theorem toggleStep_map_step (id : String) (l : List PipelineStepDef) :
    (toggleStep id l).map (fun s => s.step) = l.map (fun s => s.step) := by
  unfold toggleStep
  rw [List.map_map]
  refine List.map_congr_left ?_
  intro s _
  by_cases h : s.id = id <;> simp [h]

/-- Editing a step's config leaves every stage identifier in place. -/
theorem updateStepConfig_map_step (id k : String) (v : ConfigValue)
    (l : List PipelineStepDef) :
    (updateStepConfig id k v l).map (fun s => s.step) = l.map (fun s => s.step) := by
  unfold updateStepConfig
  rw [List.map_map]
  refine List.map_congr_left ?_
  intro s _
  by_cases h : s.id = id <;> simp [h]

/-- A successful `handleRunPipeline` posts exactly `enabledSteps l`. -/
theorem handleRunPipeline_eq_some {datasetId : String} {l : List PipelineStepDef}
    {req : JobRequest} (h : handleRunPipeline datasetId l = some req) :
    req = { dataset_id := datasetId, mode := "common", steps := enabledSteps l } := by
  simp only [handleRunPipeline] at h
  split at h
  · exact absurd h (by simp)
  · exact (Option.some.inj h).symm

/-- Concatenating the first `n` chunk slices yields the first `n * CHUNK_SIZE` bytes. -/
theorem flatten_chunks (file : List Nat) (n : Nat) :
    ((List.range n).map (fun i => chunkData file (mkChunkSubmission file.length i))).flatten
      = file.take (n * CHUNK_SIZE) := by
  induction n with
  | zero => simp
  | succ n ih =>
    rw [List.range_succ, List.map_append, List.flatten_append, ih]
    simp only [List.map_cons, List.map_nil, List.flatten_cons, List.flatten_nil,
      List.append_nil]
    rw [show (n + 1) * CHUNK_SIZE = n * CHUNK_SIZE + CHUNK_SIZE from by ring, List.take_add]
    congr 1
    simp only [chunkData, mkChunkSubmission, sliceBytes]
    rw [List.take_eq_take]
    simp only [List.length_drop, CHUNK_SIZE]
    omega

/-- If chunk `j` fails and all earlier chunks succeed, the loop over the
indices `i, i+1, …, i+n-1` (with `i ≤ j < i+n`) ends in the error state and
sends exactly the chunks `i, …, j`. -/
theorem processChunks_err (respond : Nat → Except String ChunkResponse) (size : Nat)
    (j : Nat) (e : String) (hfail : respond j = .error e) :
    ∀ (n : Nat) (i : Nat) (st : UploadUiState), i ≤ j → j < i + n →
      (∀ k, i ≤ k → k < j → respOk (respond k) = true) →
      processChunks respond size (List.range' i n) st =
        ({ uploadProgress := none, uploadError := some e },
         (List.range' i (j + 1 - i)).map (mkChunkSubmission size)) := by
  intro n
  induction n with
  | zero => intro i st h1 h2 _; omega
  | succ n ih =>
    intro i st h1 h2 h3
    rw [List.range'_succ]
    by_cases hij : i = j
    · subst hij
      have hone : i + 1 - i = 1 := by omega
      simp only [processChunks, hfail, hone, List.range'_one, List.map_cons, List.map_nil]
    · have hij' : i < j := by omega
      obtain ⟨r, hr⟩ : ∃ r, respond i = .ok r := by
        cases hcase : respond i with
        | ok r => exact ⟨r, rfl⟩
        | error e' =>
          have := h3 i (le_refl i) hij'
          rw [hcase] at this
          simp [respOk] at this
      simp only [processChunks, hr]
      rw [ih (i + 1) _ (by omega) (by omega) (fun k hk1 hk2 => h3 k (by omega) hk2)]
      have hsplit : j + 1 - i = (j - i) + 1 := by omega
      have hsub : j + 1 - (i + 1) = j - i := by omega
      rw [hsub, hsplit, List.range'_succ, List.map_cons]

/-- The configuration states the pipeline drawer can reach from
`DEFAULT_STEPS` by toggling, config editing, and drag-and-drop reordering
(the drag constructor requires both dragged ids to be rendered items, as the
dnd-kit events guarantee). -/
inductive ReachableConfig : List PipelineStepDef → Prop
  | start : ReachableConfig DEFAULT_STEPS
  | toggled (id : String) {l : List PipelineStepDef} :
      ReachableConfig l → ReachableConfig (toggleStep id l)
  | configured (id k : String) (v : ConfigValue) {l : List PipelineStepDef} :
      ReachableConfig l → ReachableConfig (updateStepConfig id k v l)
  | dragged (a b : String) {l : List PipelineStepDef} :
      ReachableConfig l → (∃ s ∈ l, s.id = a) → (∃ s ∈ l, s.id = b) →
      ReachableConfig (handleDragEnd l a b)

/-!
## Claims
-/

/-- C10: `formatBytes` returns the placeholder `"—"` both for a null size
and for a size of exactly 0 bytes, and returns `"<s> B"` for every size `s`
with `0 < s < 1024`. -/
theorem formatBytes_placeholder_and_bytes :
    formatBytes none = "—" ∧ formatBytes (some 0) = "—" ∧
    ∀ s : Nat, 0 < s → s < 1024 → formatBytes (some s) = toString s ++ " B" := by
  refine ⟨rfl, rfl, ?_⟩
  intro s h1 h2
  simp only [formatBytes]
  rw [if_neg (by omega), if_pos h2]

/-- Witness for C10 at `s = 512`. -/
theorem formatBytes_placeholder_and_bytes_witness :
    formatBytes (some 512) = toString 512 ++ " B" :=
  formatBytes_placeholder_and_bytes.2.2 512 (by decide) (by decide)

/-- C6: the deduplication stage's default configuration uses method
`exact` with `keep = first` and semantic similarity threshold `0.95`, both
in the default config map and in the declared config fields' defaults. -/
theorem dedup_default_config (s : PipelineStepDef) (hs : s ∈ DEFAULT_STEPS)
    (h : s.step = "deduplication") :
    s.config.lookup "method" = some (.str "exact") ∧
    s.config.lookup "keep" = some (.str "first") ∧
    s.config.lookup "semantic_threshold" = some (.num 0.95) ∧
    (s.configFields.find? (fun f => f.key = "method")).map (fun f => f.default)
      = some (.str "exact") ∧
    (s.configFields.find? (fun f => f.key = "keep")).map (fun f => f.default)
      = some (.str "first") ∧
    (s.configFields.find? (fun f => f.key = "semantic_threshold")).map (fun f => f.default)
      = some (.num 0.95) := by
  simp only [DEFAULT_STEPS, List.mem_cons, List.not_mem_nil, or_false] at hs
  rcases hs with rfl | rfl | rfl | rfl | rfl
  · exact ⟨rfl, rfl, rfl, rfl, rfl, rfl⟩
  · exact absurd h (by simp [noiseStepDef])
  · exact absurd h (by simp [piiStepDef])
  · exact absurd h (by simp [langStepDef])
  · exact absurd h (by simp [qualityStepDef])

/-- Witness for C6 at the deduplication entry of `DEFAULT_STEPS`. -/
theorem dedup_default_config_witness :
    dedupStepDef.config.lookup "method" = some (.str "exact") ∧
    dedupStepDef.config.lookup "keep" = some (.str "first") ∧
    dedupStepDef.config.lookup "semantic_threshold" = some (.num 0.95) ∧
    (dedupStepDef.configFields.find? (fun f => f.key = "method")).map (fun f => f.default)
      = some (.str "exact") ∧
    (dedupStepDef.configFields.find? (fun f => f.key = "keep")).map (fun f => f.default)
      = some (.str "first") ∧
    (dedupStepDef.configFields.find? (fun f => f.key = "semantic_threshold")).map
      (fun f => f.default) = some (.num 0.95) :=
  dedup_default_config dedupStepDef (by simp [DEFAULT_STEPS]) rfl

/-- C7 counterexample: the quality scorer's output column name is NOT a
field of the stage's declared config schema — `"score_column_name"` is
absent from its `configFields` keys. -/
theorem quality_score_column_not_in_schema :
    ¬ (∀ s ∈ DEFAULT_STEPS, s.step = "quality_scorer" →
        "score_column_name" ∈ s.configFields.map (fun f => f.key)) := by
  intro h
  exact absurd (h qualityStepDef (by simp [DEFAULT_STEPS]) rfl) (by decide)

/-- C7 (amended): the quality scorer stage is described as scoring each row
0–10; its default config map carries the output column name under
`score_column_name` (default `"quality_score"`), but the declared config
fields are exactly `method`, `action`, `threshold` — the output column name
is not among them.  The per-row score itself (backend, modelled from the
spec as `qualityScoreClamp`) always lies in `[0, 10]`. -/
theorem quality_scorer_schema (s : PipelineStepDef) (hs : s ∈ DEFAULT_STEPS)
    (h : s.step = "quality_scorer") (raw : ℚ) :
    s.description = "Score each row 0-10 for quality using heuristics or AI" ∧
    s.config.lookup "score_column_name" = some (.str "quality_score") ∧
    s.configFields.map (fun f => f.key) = ["method", "action", "threshold"] ∧
    "score_column_name" ∉ s.configFields.map (fun f => f.key) ∧
    0 ≤ qualityScoreClamp raw ∧ qualityScoreClamp raw ≤ 10 := by
  have hclamp1 : (0 : ℚ) ≤ qualityScoreClamp raw := le_max_left 0 _
  have hclamp2 : qualityScoreClamp raw ≤ 10 :=
    max_le (by norm_num) (min_le_left 10 raw)
  simp only [DEFAULT_STEPS, List.mem_cons, List.not_mem_nil, or_false] at hs
  rcases hs with rfl | rfl | rfl | rfl | rfl
  · exact absurd h (by simp [dedupStepDef])
  · exact absurd h (by simp [noiseStepDef])
  · exact absurd h (by simp [piiStepDef])
  · exact absurd h (by simp [langStepDef])
  · exact ⟨rfl, rfl, rfl, by decide, hclamp1, hclamp2⟩

/-- Witness for C7 at the quality entry of `DEFAULT_STEPS` with raw score 7. -/
theorem quality_scorer_schema_witness :
    qualityStepDef.description = "Score each row 0-10 for quality using heuristics or AI" ∧
    qualityStepDef.config.lookup "score_column_name" = some (.str "quality_score") ∧
    qualityStepDef.configFields.map (fun f => f.key) = ["method", "action", "threshold"] ∧
    "score_column_name" ∉ qualityStepDef.configFields.map (fun f => f.key) ∧
    0 ≤ qualityScoreClamp 7 ∧ qualityScoreClamp 7 ≤ 10 :=
  quality_scorer_schema qualityStepDef (by simp [DEFAULT_STEPS]) rfl 7

/-- The submitted chunk indices are `0, …, totalChunks - 1` by construction. -/
theorem chunkSubmissions_indices (size : Nat) :
    (chunkSubmissions size).map (fun sub => sub.chunk_index)
      = List.range (totalChunks size) := by
  rw [chunkSubmissions, List.map_map]
  exact (List.map_congr_left (fun i _ => rfl)).trans (List.map_id _)

/-- C2: for a file strictly larger than the 100MB chunk threshold, the
client produces exactly `ceil(size / CHUNK_SIZE)` chunks — characterised by
`(n-1)·CHUNK_SIZE < size ≤ n·CHUNK_SIZE` — submitted with indices
`0, …, totalChunks - 1`. -/
theorem chunk_count_is_ceil (size : Nat) (h : CHUNK_SIZE < size) :
    (chunkSubmissions size).length = totalChunks size ∧
    (chunkSubmissions size).map (fun sub => sub.chunk_index)
      = List.range (totalChunks size) ∧
    size ≤ totalChunks size * CHUNK_SIZE ∧
    (totalChunks size - 1) * CHUNK_SIZE < size := by
  refine ⟨by simp [chunkSubmissions], chunkSubmissions_indices size, ?_, ?_⟩
  · exact le_totalChunks_mul size
  · simp only [totalChunks, CHUNK_SIZE] at *
    omega

/-- Witness for C2: a 250MB file produces exactly 3 chunks. -/
theorem chunk_count_is_ceil_witness :
    ((chunkSubmissions (250 * 1024 * 1024)).length = totalChunks (250 * 1024 * 1024) ∧
     (chunkSubmissions (250 * 1024 * 1024)).map (fun sub => sub.chunk_index)
       = List.range (totalChunks (250 * 1024 * 1024)) ∧
     250 * 1024 * 1024 ≤ totalChunks (250 * 1024 * 1024) * CHUNK_SIZE ∧
     (totalChunks (250 * 1024 * 1024) - 1) * CHUNK_SIZE < 250 * 1024 * 1024) ∧
    totalChunks (250 * 1024 * 1024) = 3 :=
  ⟨chunk_count_is_ceil (250 * 1024 * 1024) (by decide), by decide⟩

/-- C3: every submitted chunk index lies in `[0, totalChunks)`, and the
chunk byte ranges `[i·CHUNK_SIZE, min((i+1)·CHUNK_SIZE, size))` partition
the file: concatenating the submitted chunks in increasing index order
yields exactly the original file's bytes. -/
theorem chunks_partition_file (file : List Nat) :
    (∀ sub ∈ chunkSubmissions file.length, sub.chunk_index < sub.total_chunks) ∧
    (chunkSubmissions file.length).map (fun sub => sub.chunk_index)
      = List.range (totalChunks file.length) ∧
    ((chunkSubmissions file.length).map (chunkData file)).flatten = file := by
  refine ⟨?_, chunkSubmissions_indices file.length, ?_⟩
  · intro sub hsub
    simp only [chunkSubmissions, List.mem_map, List.mem_range] at hsub
    obtain ⟨i, hi, rfl⟩ := hsub
    simpa [mkChunkSubmission] using hi
  · rw [chunkSubmissions, List.map_map]
    have := flatten_chunks file (totalChunks file.length)
    rw [Function.comp_def, this]
    exact List.take_of_length_le (le_totalChunks_mul file.length)

/-- Witness for C3 at the concrete file `[7, 8, 9]` (one chunk). -/
theorem chunks_partition_file_witness :
    (∀ sub ∈ chunkSubmissions ([7, 8, 9] : List Nat).length,
        sub.chunk_index < sub.total_chunks) ∧
    (chunkSubmissions ([7, 8, 9] : List Nat).length).map (fun sub => sub.chunk_index)
      = List.range (totalChunks ([7, 8, 9] : List Nat).length) ∧
    ((chunkSubmissions ([7, 8, 9] : List Nat).length).map (chunkData [7, 8, 9])).flatten
      = [7, 8, 9] :=
  chunks_partition_file [7, 8, 9]

/-- C8: if the submission of chunk `j` fails while all earlier chunks
succeed, the client records the server's error message, clears the progress
indicator, and sends no request for any chunk index greater than `j`: the
submitted indices are exactly `0, …, j`. -/
theorem chunk_failure_stops_upload (respond : Nat → Except String ChunkResponse)
    (size j : Nat) (e : String) (hj : j < totalChunks size)
    (hfail : respond j = .error e)
    (hok : ∀ k, k < j → respOk (respond k) = true) :
    (onDropChunked respond size).1.uploadError = some e ∧
    (onDropChunked respond size).1.uploadProgress = none ∧
    (onDropChunked respond size).2.map (fun sub => sub.chunk_index) = List.range (j + 1) ∧
    ∀ sub ∈ (onDropChunked respond size).2, sub.chunk_index ≤ j := by
  have key : onDropChunked respond size =
      ({ uploadProgress := none, uploadError := some e },
       (List.range (j + 1)).map (mkChunkSubmission size)) := by
    unfold onDropChunked
    rw [List.range_eq_range']
    rw [processChunks_err respond size j e hfail (totalChunks size) 0 _
      (by omega) (by omega) (fun k _ hk2 => hok k hk2)]
    simp [List.range_eq_range']
  rw [key]
  refine ⟨rfl, rfl, ?_, ?_⟩
  · rw [List.map_map]
    exact (List.map_congr_left (fun i _ => rfl)).trans (List.map_id _)
  · intro sub hsub
    simp only [List.mem_map, List.mem_range] at hsub
    obtain ⟨i, hi, rfl⟩ := hsub
    simpa [mkChunkSubmission] using Nat.lt_succ_iff.mp hi

/-- The failure oracle of the C8 witness: chunk 0 succeeds, chunk 1 fails. -/
def failAtOneRespond : Nat → Except String ChunkResponse :=
  fun k => if k = 1 then .error "Chunk upload failed"
    else .ok { progress := 50, status := "uploading" }

/-- Witness for C8: a 250MB upload whose second chunk fails sends exactly
chunks 0 and 1, records the error, and clears the progress cell. -/
theorem chunk_failure_stops_upload_witness :
    (onDropChunked failAtOneRespond (250 * 1024 * 1024)).1.uploadError
      = some "Chunk upload failed" ∧
    (onDropChunked failAtOneRespond (250 * 1024 * 1024)).1.uploadProgress = none ∧
    (onDropChunked failAtOneRespond (250 * 1024 * 1024)).2.map (fun sub => sub.chunk_index)
      = List.range 2 ∧
    ∀ sub ∈ (onDropChunked failAtOneRespond (250 * 1024 * 1024)).2, sub.chunk_index ≤ 1 :=
  chunk_failure_stops_upload failAtOneRespond (250 * 1024 * 1024) 1 "Chunk upload failed"
    (by decide) (by rfl) (by decide)

/-- The job request `handleRunPipeline` posts for the default pipeline
(`language_filter` is disabled there). -/
def defaultStepsReq : JobRequest :=
  { dataset_id := "ds", mode := "common", steps := enabledSteps DEFAULT_STEPS }

/-- C1 counterexample: submitting the default pipeline — whose
`language_filter` stage sits at position 3 with `enabled = false` — produces
a job whose StageResult list (one result per submitted stage) contains no
entry for `language_filter` at all: the disabled stage is filtered out
before submission, so it cannot appear with `skipped = true`. -/
theorem disabled_stage_not_in_results :
    handleRunPipeline "ds" DEFAULT_STEPS = some defaultStepsReq ∧
    (DEFAULT_STEPS.map (fun s => (s.step, s.enabled)))[3]? = some ("language_filter", false) ∧
    "language_filter" ∉ jobStageResultIds defaultStepsReq := by
  refine ⟨rfl, rfl, ?_⟩
  decide

/-- C1 (amended): a stage with `enabled = false` is omitted from the
submitted step list entirely — the posted steps are exactly the enabled
stages, in configured order, carrying no enabled flag — so the job's
StageResult list consists of the enabled stages only. -/
theorem disabled_stage_omitted_from_submission (datasetId : String)
    (l : List PipelineStepDef) (req : JobRequest)
    (h : handleRunPipeline datasetId l = some req) :
    req.steps = enabledSteps l ∧
    jobStageResultIds req = (l.filter (fun s => s.enabled)).map (fun s => s.step) := by
  obtain rfl := handleRunPipeline_eq_some h
  refine ⟨rfl, ?_⟩
  simp [jobStageResultIds, enabledSteps, List.map_map]

/-- Witness for C1 (amended) at the default pipeline. -/
theorem disabled_stage_omitted_from_submission_witness :
    defaultStepsReq.steps = enabledSteps DEFAULT_STEPS ∧
    jobStageResultIds defaultStepsReq
      = (DEFAULT_STEPS.filter (fun s => s.enabled)).map (fun s => s.step) :=
  disabled_stage_omitted_from_submission "ds" DEFAULT_STEPS defaultStepsReq rfl

/-- C4: the steps posted to job creation are exactly the enabled stages of
the configured list — including a list produced by drag-and-drop reordering
(`handleDragEnd`) — projected in place, and the filtered list is a sublist
of the configured list, so the posted steps preserve the enabled stages'
relative order. -/
theorem submission_preserves_stage_order (l : List PipelineStepDef)
    (a b dsid : String) (req : JobRequest)
    (h : handleRunPipeline dsid (handleDragEnd l a b) = some req) :
    req.steps = ((handleDragEnd l a b).filter (fun s => s.enabled)).map
      (fun s => ({ step := s.step, config := s.config } : SubmittedStep)) ∧
    ((handleDragEnd l a b).filter (fun s => s.enabled)).Sublist (handleDragEnd l a b) := by
  obtain rfl := handleRunPipeline_eq_some h
  exact ⟨rfl, List.filter_sublist _⟩

/-- The job request posted after dragging the quality stage onto the dedup
stage (moving it to the front). -/
def reorderedReq : JobRequest :=
  { dataset_id := "ds", mode := "common"
  , steps := enabledSteps (handleDragEnd DEFAULT_STEPS "quality" "dedup") }

/-- Witness for C4 after a concrete drag-and-drop reordering. -/
theorem submission_preserves_stage_order_witness :
    reorderedReq.steps = ((handleDragEnd DEFAULT_STEPS "quality" "dedup").filter
      (fun s => s.enabled)).map
      (fun s => ({ step := s.step, config := s.config } : SubmittedStep)) ∧
    ((handleDragEnd DEFAULT_STEPS "quality" "dedup").filter (fun s => s.enabled)).Sublist
      (handleDragEnd DEFAULT_STEPS "quality" "dedup") :=
  submission_preserves_stage_order DEFAULT_STEPS "quality" "dedup" "ds" reorderedReq rfl

/-- C9: with zero enabled stages the run handler performs no job-creation
request and the Run button is disabled; dually, any job that is created
carries a non-empty step list. -/
theorem no_job_without_enabled_steps (dsid : String) (l : List PipelineStepDef)
    (submitting : Bool) :
    (enabledCount l = 0 → handleRunPipeline dsid l = none ∧ runDisabled submitting l = true) ∧
    (∀ req, handleRunPipeline dsid l = some req → req.steps ≠ []) := by
  have hlen : (enabledSteps l).length = enabledCount l := by
    simp [enabledSteps, enabledCount]
  constructor
  · intro h
    constructor
    · simp [handleRunPipeline, hlen, h]
    · simp [runDisabled, h]
  · intro req hreq
    obtain rfl := handleRunPipeline_eq_some hreq
    intro hempty
    have hnil : enabledSteps l = [] := hempty
    simp [handleRunPipeline, hnil] at hreq

/-- The default pipeline with its four enabled stages all toggled off. -/
def allStagesOff : List PipelineStepDef :=
  toggleStep "dedup" (toggleStep "noise" (toggleStep "pii" (toggleStep "quality" DEFAULT_STEPS)))

/-- Witness for C9: with every stage toggled off, no request is posted and
the Run button is disabled. -/
theorem no_job_without_enabled_steps_witness :
    enabledCount allStagesOff = 0 ∧
    handleRunPipeline "ds" allStagesOff = none ∧
    runDisabled false allStagesOff = true := by
  have h : enabledCount allStagesOff = 0 := by decide
  obtain ⟨h1, h2⟩ := (no_job_without_enabled_steps "ds" allStagesOff false).1 h
  exact ⟨h, h1, h2⟩

/-- C5: in every configuration reachable from `DEFAULT_STEPS` by toggling,
config editing, and drag-and-drop reordering, the multiset of stage
identifiers is exactly the fixed enumerated set (the operations never
change any stage's identifier), every stage's identifier belongs to
`STEP_IDENTIFIERS`, and so does every step identifier carried by a
submitted pipeline. -/
theorem step_identifiers_fixed (l : List PipelineStepDef) (hl : ReachableConfig l) :
    (l.map (fun s => s.step)).Perm STEP_IDENTIFIERS ∧
    (∀ s ∈ l, s.step ∈ STEP_IDENTIFIERS) ∧
    (∀ dsid req, handleRunPipeline dsid l = some req →
        ∀ t ∈ req.steps, t.step ∈ STEP_IDENTIFIERS) := by
  have hperm : (l.map (fun s => s.step)).Perm STEP_IDENTIFIERS := by
    induction hl with
    | start => exact List.Perm.refl _
    | toggled id _ ih => rw [toggleStep_map_step]; exact ih
    | configured id k v _ ih => rw [updateStepConfig_map_step]; exact ih
    | dragged a b _ _ hb ih =>
      exact ((handleDragEnd_perm _ a b hb).map (fun s => s.step)).trans ih
  have hmem : ∀ s ∈ l, s.step ∈ STEP_IDENTIFIERS := by
    intro s hs
    exact hperm.mem_iff.mp (List.mem_map_of_mem _ hs)
  refine ⟨hperm, hmem, ?_⟩
  intro dsid req hreq t ht
  obtain rfl := handleRunPipeline_eq_some hreq
  simp only [enabledSteps, List.mem_map] at ht
  obtain ⟨s, hs, rfl⟩ := ht
  exact hmem s (List.mem_of_mem_filter hs)

/-- Witness for C5 after toggling the language filter on. -/
theorem step_identifiers_fixed_witness :
    ((toggleStep "lang" DEFAULT_STEPS).map (fun s => s.step)).Perm STEP_IDENTIFIERS ∧
    (∀ s ∈ toggleStep "lang" DEFAULT_STEPS, s.step ∈ STEP_IDENTIFIERS) ∧
    (∀ dsid req, handleRunPipeline dsid (toggleStep "lang" DEFAULT_STEPS) = some req →
        ∀ t ∈ req.steps, t.step ∈ STEP_IDENTIFIERS) :=
  step_identifiers_fixed (toggleStep "lang" DEFAULT_STEPS)
    (ReachableConfig.toggled "lang" ReachableConfig.start)
